import Mathlib

/-!
Verification of the DTF image pipeline (pngjs-based geometry stages,
batch acquisition retry loop, per-candidate pipeline orchestration).

The TypeScript source is shallowly embedded:
* pngjs RGBA buffers (`Buffer`) become total functions `ℕ → ℕ` holding bytes;
  a raster is width/height plus its flat byte array (row-major RGBA,
  index `(y*width + x)*4 + c`).  `new PNG({width, height})` allocates a
  zero-filled buffer, so a fresh canvas is the constant-0 function.
* JS `number` arithmetic is modelled exactly over `ℚ` (the programs only
  combine small integers, halves and ratios, far from float64 error);
  `Math.floor` is `Int.floor`, `Math.round x` is `⌊x + 1/2⌋`, and the
  byte-store coercion of a `Buffer` element assignment is `· % 256`.
* `Buffer.set(subarray)` row copies become `copyRows`, an explicit fold of
  range-writes over the flat destination buffer.
* fallible code returns `Except`; external collaborators (image provider,
  remove.bg, vectorizer, PNG decoding of opaque byte buffers) are
  parameters of the definitions that call them.
-/

namespace DTF

/-- Decoded RGBA image: the pngjs `PNG` object, with its flat `data` buffer. -/
structure Raster where
  width : ℕ
  height : ℕ
  data : ℕ → ℕ

/-- Byte of channel `c` of the pixel at `(x, y)`:
`data[(y*width + x)*4 + c]` exactly as the source indexes its buffers. -/
def Raster.px (img : Raster) (x y c : ℕ) : ℕ :=
  img.data ((y * img.width + x) * 4 + c)

/-- JS `Math.floor` on an exact rational. -/
def jsFloor (q : ℚ) : ℤ := ⌊q⌋

/-- JS `Math.round`: floor of `x + 0.5` (ties toward +∞, as in JS). -/
def jsRound (q : ℚ) : ℤ := ⌊q + 1/2⌋

/-- Model of `dst.set(src.subarray(0, len), start)`: bytes `start ≤ i < start+len`
are replaced by `srcf (i - start)`, the rest of `dst` is untouched. -/
def bufSetRange (dst : ℕ → ℕ) (start len : ℕ) (srcf : ℕ → ℕ) : ℕ → ℕ :=
  fun i => if start ≤ i ∧ i < start + len then srcf (i - start) else dst i

/-- Model of the row-copy loops `for (y = 0; y < rows; y++) dst.set(...)`:
row `r` copies `rowLen` bytes from offset `srcOff r` of `srcf` to offset
`dstStart r` of the destination.  Rows are written in ascending order
(row `r` is the last write in `copyRows (r+1)`). -/
def copyRows (rows rowLen : ℕ) (dstStart srcOff : ℕ → ℕ) (srcf : ℕ → ℕ)
    (dst : ℕ → ℕ) : ℕ → ℕ :=
  match rows with
  | 0 => dst
  | r + 1 =>
      bufSetRange (copyRows r rowLen dstStart srcOff srcf dst) (dstStart r) rowLen
        (fun k => srcf (srcOff r + k))

/-- Amount of transparent padding added by `padTransparentPng`:
`Math.max(1, Math.floor(base * Math.max(0, marginFraction)))`
with `base = Math.min(src.width, src.height)`. -/
def padAmount (w h : ℕ) (mf : ℚ) : ℕ :=
  (max 1 (jsFloor ((min w h : ℕ) * max 0 mf))).toNat

/-- Embedding of `padTransparentPng` (src/unnamed/part_002, lines 373-391):
allocates a transparent `(w+2*pad) × (h+2*pad)` canvas and row-copies the
source into it at offset `(pad, pad)`. -/
def padTransparentPng (src : Raster) (mf : ℚ) : Raster :=
  let pad := padAmount src.width src.height mf
  let outW := src.width + 2 * pad
  { width := outW
    height := src.height + 2 * pad
    data := copyRows src.height (src.width * 4)
      (fun y => ((y + pad) * outW + pad) * 4)
      (fun y => y * src.width * 4)
      src.data
      (fun _ => 0) }

/-! ### Resampler (contain: src/unnamed/part_002 lines 393-442; cover:
src/src/pages/api/dtf/generate.ts lines 62-104) -/

/-- Half-pixel-center sample coordinate `(destCoord + 0.5)/scale - 0.5`. -/
def sampleCoord (d : ℕ) (scale : ℚ) : ℚ := (d + 1/2) / scale - 1/2

/-- Lower interpolation index `Math.max(0, Math.floor(g))` as a natural. -/
def clampFloor (g : ℚ) : ℕ := (max 0 (jsFloor g)).toNat

/-- Scaled size `Math.max(1, Math.round(n * scale))` used on both axes by
both fit modes. -/
def scaledDim (n : ℕ) (scale : ℚ) : ℕ := (max 1 (jsRound (n * scale))).toNat

/-- Contain-mode scale factor `Math.min(targetW / src.width, targetH / src.height)`. -/
def containScale (src : Raster) (targetW targetH : ℕ) : ℚ :=
  min ((targetW : ℚ) / src.width) ((targetH : ℚ) / src.height)

/-- Cover-mode scale factor `Math.max(targetW / src.width, targetH / src.height)`. -/
def coverScale (src : Raster) (targetW targetH : ℕ) : ℚ :=
  max ((targetW : ℚ) / src.width) ((targetH : ℚ) / src.height)

/-- Bilinear sample of the inner loop of `resizeContainWithPngjs`: channel `c`
of destination pixel `(x, y)`.  The floor indices are clamped below at 0 and
the `+1` neighbours above at `size - 1`, the weights are `g - idx0` exactly as
in the source (the weights themselves are NOT clamped), and the final
`dData[di+c] = Math.round(v)` byte store wraps modulo 256. -/
def bilinearAt (src : Raster) (scale : ℚ) (x y c : ℕ) : ℕ :=
  let gy := sampleCoord y scale
  let y0 := clampFloor gy
  let y1 := min (src.height - 1) (y0 + 1)
  let wy1 : ℚ := gy - y0
  let wy0 : ℚ := 1 - wy1
  let gx := sampleCoord x scale
  let x0 := clampFloor gx
  let x1 := min (src.width - 1) (x0 + 1)
  let wx1 : ℚ := gx - x0
  let wx0 : ℚ := 1 - wx1
  let v0 : ℚ := src.px x0 y0 c * wx0 + src.px x1 y0 c * wx1
  let v1 : ℚ := src.px x0 y1 c * wx0 + src.px x1 y1 c * wx1
  (jsRound (v0 * wy0 + v1 * wy1) % 256).toNat

/-- Intermediate `scaled` raster of `resizeContainWithPngjs`: every pixel of
the `scaledW × scaledH` buffer is filled by the bilinear loop. -/
def containScaled (src : Raster) (targetW targetH : ℕ) : Raster :=
  let scale := containScale src targetW targetH
  let scaledW := scaledDim src.width scale
  let scaledH := scaledDim src.height scale
  { width := scaledW
    height := scaledH
    data := fun i =>
      if i / 4 < scaledW * scaledH then
        bilinearAt src scale (i / 4 % scaledW) (i / 4 / scaledW) (i % 4)
      else 0 }

/-- Placement offset `Math.max(0, Math.floor((targetW - scaledW) / 2))` of
`resizeContainWithPngjs`. -/
def containOffX (src : Raster) (targetW targetH : ℕ) : ℕ :=
  (max 0 (jsFloor (((targetW : ℚ) - (containScaled src targetW targetH).width) / 2))).toNat

/-- Placement offset `Math.max(0, Math.floor((targetH - scaledH) / 2))` of
`resizeContainWithPngjs`. -/
def containOffY (src : Raster) (targetW targetH : ℕ) : ℕ :=
  (max 0 (jsFloor (((targetH : ℚ) - (containScaled src targetW targetH).height) / 2))).toNat

/-- Embedding of `resizeContainWithPngjs`: bilinear-scale the source by
`containScale`, then row-copy the scaled image centered onto a fresh
transparent `targetW × targetH` canvas at offset
`Math.max(0, Math.floor((target - scaled)/2))` per axis. -/
def resizeContainWithPngjs (src : Raster) (targetW targetH : ℕ) : Raster :=
  { width := targetW
    height := targetH
    data := copyRows (containScaled src targetW targetH).height
      ((containScaled src targetW targetH).width * 4)
      (fun y => ((y + containOffY src targetW targetH) * targetW
        + containOffX src targetW targetH) * 4)
      (fun y => y * (containScaled src targetW targetH).width * 4)
      (containScaled src targetW targetH).data
      (fun _ => 0) }

/-- Intermediate `scaled` raster of `resizeCoverWithPngjs`: nearest-neighbour
upscale, `s = Math.min(srcSize - 1, Math.floor(dest / scale))` per axis
(the source comments it "Nearest-neighbor upscale"). -/
def coverScaled (src : Raster) (targetW targetH : ℕ) : Raster :=
  let scale := coverScale src targetW targetH
  let scaledW := scaledDim src.width scale
  let scaledH := scaledDim src.height scale
  { width := scaledW
    height := scaledH
    data := fun i =>
      if i / 4 < scaledW * scaledH then
        let x := i / 4 % scaledW
        let y := i / 4 / scaledW
        let sx := min (src.width - 1) (jsFloor ((x : ℚ) / scale)).toNat
        let sy := min (src.height - 1) (jsFloor ((y : ℚ) / scale)).toNat
        src.px sx sy (i % 4)
      else 0 }

/-- Crop offset `Math.max(0, Math.floor((scaledW - targetW) / 2))` of
`resizeCoverWithPngjs`. -/
def coverCropX (src : Raster) (targetW targetH : ℕ) : ℕ :=
  (max 0 (jsFloor ((((coverScaled src targetW targetH).width : ℚ) - targetW) / 2))).toNat

/-- Crop offset `Math.max(0, Math.floor((scaledH - targetH) / 2))` of
`resizeCoverWithPngjs`. -/
def coverCropY (src : Raster) (targetW targetH : ℕ) : ℕ :=
  (max 0 (jsFloor ((((coverScaled src targetW targetH).height : ℚ) - targetH) / 2))).toNat

/-- Embedding of `resizeCoverWithPngjs`: nearest-neighbour scale by
`coverScale`, then center-crop pixel-by-pixel to `targetW × targetH` with
crop offset `Math.max(0, Math.floor((scaled - target)/2))` per axis. -/
def resizeCoverWithPngjs (src : Raster) (targetW targetH : ℕ) : Raster :=
  { width := targetW
    height := targetH
    data := fun i =>
      if i / 4 < targetW * targetH then
        (coverScaled src targetW targetH).px
          (i / 4 % targetW + coverCropX src targetW targetH)
          (i / 4 / targetW + coverCropY src targetW targetH) (i % 4)
      else 0 }

/-! ### Format normalizer (src/unnamed/part_002 lines 171-207) -/

/-- PNG magic signature `89 50 4E 47 0D 0A 1A 0A`. -/
def pngMagic : List ℕ := [0x89, 0x50, 0x4e, 0x47, 0x0d, 0x0a, 0x1a, 0x0a]

/-- Embedding of `isPng`: `buf.length > 8` (strictly) and the first eight
bytes equal the PNG signature. -/
def isPng (buf : List ℕ) : Bool :=
  decide (8 < buf.length) && (buf.take 8 == pngMagic)

/-- Embedding of `ensurePng` over raw bytes.  The image-js decoder chain
(`Image.load` then `toBuffer('image/png')`) is an external collaborator,
passed as `decode`; `none` models a decode exception, which the source
catches and answers with the passthrough `{ png: buf, isActuallyPng: false }`.
The Bool is the `isActuallyPng` tag. -/
def ensurePng (decode : List ℕ → Option (List ℕ)) (buf : List ℕ) :
    List ℕ × Bool :=
  if isPng buf then (buf, true)
  else
    match decode buf with
    | some out => (out, false)
    | none => (buf, false)

/-! ### Batch acquisition (src/unnamed/part_002 lines 213-292)

The `while (remaining > 0 && attempts < 6)` loop of `generateBasePngs`.
The external generator is modelled as `g : ℕ → ℕ → List α`: calling it
during attempt number `a` (0-based) with `n = remaining` yields the list of
usable image buffers extracted from that response (the b64 branch pushes
all of them onto the accumulator).  An empty list models the
`provider returned 0 items; retrying` branch, which `continue`s without
recomputing `remaining`. -/

/-- Mutable state of the retry loop. -/
structure GenState (α : Type) where
  accum : List α
  remaining : ℤ
  attempts : ℕ

/-- One iteration of the loop body (entered when `remaining > 0` and
`attempts < 6`): bump `attempts`, request `remaining` items, and on a
non-empty response append them and recompute `remaining = count - accum.length`. -/
def genStep {α : Type} (g : ℕ → ℕ → List α) (count : ℕ) (s : GenState α) :
    GenState α :=
  let items := g s.attempts s.remaining.toNat
  if items.isEmpty then { s with attempts := s.attempts + 1 }
  else
    let accum := s.accum ++ items
    { accum := accum
      remaining := (count : ℤ) - accum.length
      attempts := s.attempts + 1 }

/-- The retry loop; `fuel = 6` suffices because `attempts` grows by 1 per
iteration and the guard requires `attempts < 6`. -/
def genRun {α : Type} (g : ℕ → ℕ → List α) (count : ℕ) :
    ℕ → GenState α → GenState α
  | 0, s => s
  | fuel + 1, s =>
      if 0 < s.remaining ∧ s.attempts < 6 then
        genRun g count fuel (genStep g count s)
      else s

/-- Initial state: `accum = []`, `remaining = Math.max(1, Math.floor(count))`,
`attempts = 0`. -/
def genInit (α : Type) (count : ℕ) : GenState α :=
  { accum := [], remaining := (max 1 count : ℕ), attempts := 0 }

/-- Failure mode of `generateBasePngs`: the
`throw new Error('Nebius returned no usable image buffers')` raise. -/
inductive GenError where
  | noCandidates
deriving DecidableEq

/-- Embedding of `generateBasePngs`: run the loop, raise when the
accumulator is empty, otherwise return `accum.slice(0, count)` (a short
accumulator is only logged as a warning and is returned as-is). -/
def generateBasePngs {α : Type} (g : ℕ → ℕ → List α) (count : ℕ) :
    Except GenError (List α) :=
  let s := genRun g count 6 (genInit α count)
  if s.accum.isEmpty then .error .noCandidates
  else .ok (s.accum.take count)

/-! ### Per-candidate pipeline and orchestrator
(src/unnamed/part_002 lines 452-527)

The candidate pipeline works on opaque byte buffers.  For this layer a
buffer is either valid PNG bytes carrying a decoded raster, or non-PNG
bytes that the image-js fallback may or may not be able to decode;
`PNG.sync.read` (used by the mandatory pad/resize stages) throws on
anything that is not a valid PNG. -/

inductive Buf where
  | png (r : Raster)
  | other (d : Option Raster)

/-- Model of `PNG.sync.read`: decodes PNG bytes, throws otherwise. -/
def pngSyncRead : Buf → Except String Raster
  | .png r => .ok r
  | .other _ => .error "Invalid file signature"

/-- `ensurePng` at the buffer level: PNG bytes pass through tagged `true`;
decodable non-PNG bytes are re-encoded as PNG; undecodable bytes pass
through unchanged, tagged `false`. -/
def ensurePngBuf : Buf → Buf × Bool
  | .png r => (.png r, true)
  | .other (some r) => (.png r, false)
  | .other none => (.other none, false)

/-- Observable log records: `step` logs `STEP_OK name` / `STEP_FAIL name`,
and the catch blocks additionally `console.warn`. -/
inductive LogEntry where
  | stepOk (name : String)
  | stepFail (name : String)
  | warn (name : String)
deriving DecidableEq

/-- Mandatory pad stage: decode, pad, re-encode
(`padTransparentPng(normalized, MARGIN_FRACTION)`). -/
def padStep (mf : ℚ) (b : Buf) : Except String Buf := do
  let r ← pngSyncRead b
  return .png (padTransparentPng r mf)

/-- Mandatory resize stage: decode, contain-resize, re-encode
(`resizeContainWithPngjs(padded, trimW, trimH)`). -/
def resizeStep (tW tH : ℕ) (b : Buf) : Except String Buf := do
  let r ← pngSyncRead b
  return .png (resizeContainWithPngjs r tW tH)

/-- Result of one candidate: the print PNG (uploaded as both `proofUrl`
and `finalUrl`) and the optional vectorizer SVG. -/
structure PipeOut where
  printPng : Buf
  svg : Option Buf

/-- Embedding of `processOne` for one candidate.  `remover` and
`vectorizer` are the external remove.bg / vectorizer.ai collaborators.
Optional-stage failures are caught: the warning is logged and the
pipeline continues with the pre-stage buffer.  Mandatory-stage failures
(`pad_margin`, `resize_trim`) propagate, rejecting this candidate.
(The vectorizer token-download sub-step, which only adds a further
optional artifact, and the blob uploads are outside this model.) -/
def processOne (remover vectorizer : Buf → Except String Buf)
    (baseBuf : Buf) (tW tH : ℕ) (mf : ℚ) (doRemoveBg doVectorize : Bool) :
    Except String PipeOut × List LogEntry :=
  let normalized0 := (ensurePngBuf baseBuf).1
  let log0 := [LogEntry.stepOk "normalize"]
  let step1 : Buf × List LogEntry :=
    if doRemoveBg then
      match remover normalized0 with
      | .ok b => (b, [LogEntry.stepOk "removebg"])
      | .error _ => (normalized0, [LogEntry.stepFail "removebg", LogEntry.warn "removebg"])
    else (normalized0, [])
  let normalized := step1.1
  let step2 : Option Buf × List LogEntry :=
    if doVectorize then
      match vectorizer normalized with
      | .ok s => (some s, [LogEntry.stepOk "vectorize"])
      | .error _ => (none, [LogEntry.stepFail "vectorize", LogEntry.warn "vectorize"])
    else (none, [])
  match padStep mf normalized with
  | .error e =>
      (.error ("pad_margin: " ++ e),
        log0 ++ step1.2 ++ step2.2 ++ [LogEntry.stepFail "pad_margin"])
  | .ok padded =>
      match resizeStep tW tH padded with
      | .error e =>
          (.error ("resize_trim: " ++ e),
            log0 ++ step1.2 ++ step2.2 ++
              [LogEntry.stepOk "pad_margin", LogEntry.stepFail "resize_trim"])
      | .ok resized =>
          (.ok { printPng := resized, svg := step2.1 },
            log0 ++ step1.2 ++ step2.2 ++
              [LogEntry.stepOk "pad_margin", LogEntry.stepOk "resize_trim"])

/-- Semantics of `Promise.all` over the candidate results: resolves with
every candidate's value, or rejects as soon as any candidate rejects. -/
def collectAll {α : Type} (f : α → Except String PipeOut) :
    List α → Except String (List PipeOut)
  | [] => .ok []
  | b :: rest => do
      let r ← f b
      let rs ← collectAll f rest
      return r :: rs

/-- Embedding of the orchestration inside `generateDTF`:
`Promise.all(bases.map((buf, i) => processOne(buf, ...)))`. -/
def generateDTFPipeline (remover vectorizer : Buf → Except String Buf)
    (bases : List Buf) (tW tH : ℕ) (mf : ℚ) (doRemoveBg doVectorize : Bool) :
    Except String (List PipeOut) :=
  collectAll (fun b => (processOne remover vectorizer b tW tH mf doRemoveBg doVectorize).1)
    bases

/-! ### Concrete fixtures used by witnesses and counterexamples -/

/-- Concrete 2×2 source raster with sixteen distinct bytes. -/
def exRaster : Raster := ⟨2, 2, fun i => if i < 16 then i + 10 else 0⟩

/-- Concrete 2×2 source raster whose first row holds byte 200 and second
row byte 255 in every channel. -/
def exC4 : Raster := ⟨2, 2, fun i => if i < 16 then (if i < 8 then 200 else 255) else 0⟩

/-- Concrete 1×1 raster. -/
def exOne : Raster := ⟨1, 1, fun i => if i < 4 then 99 else 0⟩

/-- Generator that always delivers exactly one usable buffer per attempt. -/
def genAlwaysOne : ℕ → ℕ → List ℕ := fun _ _ => [0]

/-- Generator that never delivers a usable buffer. -/
def genAlwaysZero : ℕ → ℕ → List ℕ := fun _ _ => []

/-- Generator that delivers one usable buffer on its first attempt and
nothing afterwards. -/
def genOnceOne : ℕ → ℕ → List ℕ := fun a _ => if a = 0 then [5] else []

/-- Remover that always fails (e.g. remove.bg quota exhausted). -/
def removerFail : Buf → Except String Buf := fun _ => .error "quota exceeded"

/-- Vectorizer that always fails. -/
def vectorizerFail : Buf → Except String Buf := fun _ => .error "credentials"

end DTF

namespace DTF

/-! ### Generic lemmas about the flat-buffer machinery -/

theorem bufSetRange_hit (dst : ℕ → ℕ) (start len : ℕ) (srcf : ℕ → ℕ) (i : ℕ)
    (h1 : start ≤ i) (h2 : i < start + len) :
    bufSetRange dst start len srcf i = srcf (i - start) := by
  simp [bufSetRange, h1, h2]

theorem bufSetRange_miss (dst : ℕ → ℕ) (start len : ℕ) (srcf : ℕ → ℕ) (i : ℕ)
    (h : ¬ (start ≤ i ∧ i < start + len)) :
    bufSetRange dst start len srcf i = dst i := by
  simp only [bufSetRange, if_neg h]

/-- Reading inside the range written for row `y` returns the copied source
byte, provided the rows' destination ranges do not overlap. -/
theorem copyRows_hit (rows rowLen : ℕ) (dstStart srcOff : ℕ → ℕ)
    (srcf dst : ℕ → ℕ)
    (mono : ∀ a b, a < b → b < rows → dstStart a + rowLen ≤ dstStart b)
    (y : ℕ) (hy : y < rows) (i : ℕ)
    (h1 : dstStart y ≤ i) (h2 : i < dstStart y + rowLen) :
    copyRows rows rowLen dstStart srcOff srcf dst i = srcf (srcOff y + (i - dstStart y)) := by
  induction rows with
  | zero => omega
  | succ r ih =>
      by_cases hyr : y = r
      · subst hyr
        exact bufSetRange_hit _ _ _ _ _ h1 h2
      · have hylt : y < r := by omega
        have hsep : dstStart y + rowLen ≤ dstStart r := mono y r hylt (Nat.lt_succ_self r)
        have hmiss : ¬ (dstStart r ≤ i ∧ i < dstStart r + rowLen) := by omega
        rw [copyRows, bufSetRange_miss _ _ _ _ _ hmiss]
        exact ih (fun a b hab hbr => mono a b hab (Nat.lt_succ_of_lt hbr)) hylt

/-- Reading outside every row's destination range returns the original byte. -/
theorem copyRows_miss (rows rowLen : ℕ) (dstStart srcOff : ℕ → ℕ)
    (srcf dst : ℕ → ℕ) (i : ℕ)
    (h : ∀ y, y < rows → ¬ (dstStart y ≤ i ∧ i < dstStart y + rowLen)) :
    copyRows rows rowLen dstStart srcOff srcf dst i = dst i := by
  induction rows with
  | zero => rfl
  | succ r ih =>
      rw [copyRows, bufSetRange_miss _ _ _ _ _ (h r (Nat.lt_succ_self r))]
      exact ih (fun y hy => h y (Nat.lt_succ_of_lt hy))

/-- Decomposition of the flat RGBA index `(y*W + x)*4 + c` back into its
pixel coordinates, for in-range `x` and `c`. -/
theorem pxIndex_decomp (W x y c : ℕ) (hx : x < W) (hc : c < 4) :
    ((y * W + x) * 4 + c) / 4 = y * W + x ∧ ((y * W + x) * 4 + c) % 4 = c ∧
      (y * W + x) % W = x ∧ (y * W + x) / W = y := by
  have hW : 0 < W := by omega
  refine ⟨?_, ?_, ?_, ?_⟩
  · omega
  · omega
  · rw [Nat.add_comm, Nat.add_mul_mod_self_right]
    exact Nat.mod_eq_of_lt hx
  · rw [Nat.add_comm, Nat.add_mul_div_right _ _ hW, Nat.div_eq_of_lt hx]
    omega

/-- Disjointness of the row-copy destination ranges used by the padding and
contain-placement loops: the flat index of a pixel `(x, y)` of the `outW`-wide
destination cannot fall inside the range written for source row `y'` unless
`y = y' + pad`. -/
theorem row_range_disjoint (outW offX offY w y x c y' : ℕ)
    (hw : offX + w ≤ outW) (hx : x < outW) (hc : c < 4) (hne : y ≠ y' + offY) :
    ¬ (((y' + offY) * outW + offX) * 4 ≤ (y * outW + x) * 4 + c ∧
        (y * outW + x) * 4 + c < ((y' + offY) * outW + offX) * 4 + w * 4) := by
  rintro ⟨h1, h2⟩
  rcases Nat.lt_or_ge y (y' + offY) with hlt | hge
  · have k : y * outW + outW ≤ (y' + offY) * outW := by
      calc y * outW + outW = (y + 1) * outW := by ring
        _ ≤ (y' + offY) * outW := Nat.mul_le_mul_right _ (by omega)
    omega
  · have hgt : y' + offY < y := by omega
    have k : (y' + offY) * outW + outW ≤ y * outW := by
      calc (y' + offY) * outW + outW = (y' + offY + 1) * outW := by ring
        _ ≤ y * outW := Nat.mul_le_mul_right _ (by omega)
    omega

/-- Monotone-with-gap property of those same destination ranges, as needed
by `copyRows_hit`. -/
theorem row_starts_mono (outW offX offY w : ℕ) (hw : offX + w ≤ outW) (a b : ℕ)
    (hab : a < b) :
    ((a + offY) * outW + offX) * 4 + w * 4 ≤ ((b + offY) * outW + offX) * 4 := by
  have k : (a + offY) * outW + outW ≤ (b + offY) * outW := by
    calc (a + offY) * outW + outW = (a + offY + 1) * outW := by ring
      _ ≤ (b + offY) * outW := Nat.mul_le_mul_right _ (by omega)
  omega

/-! ### Claim C2: MarginPadder -/

/-- Claim C2: for every decoded source image with `width, height ≥ 1` and
every `marginFraction ∈ [0,1)`, `padTransparentPng` returns a raster of
exactly `(width + 2*pad) × (height + 2*pad)` with
`pad = max(1, floor(min(width,height) * marginFraction))`; every pixel of
the new border is `(0,0,0,0)`, and every interior pixel at
`(x + pad, y + pad)` is byte-for-byte the source pixel at `(x, y)`. -/
theorem padTransparentPng_spec (src : Raster) (mf : ℚ) (pad : ℕ)
    (hw : 1 ≤ src.width) (hh : 1 ≤ src.height) (hmf0 : 0 ≤ mf) (hmf1 : mf < 1)
    (hpad : (pad : ℤ) = max 1 ⌊((min src.width src.height : ℕ) : ℚ) * mf⌋) :
    (padTransparentPng src mf).width = src.width + 2 * pad ∧
    (padTransparentPng src mf).height = src.height + 2 * pad ∧
    (∀ x y c, x < src.width + 2 * pad → y < src.height + 2 * pad → c < 4 →
      (x < pad ∨ pad + src.width ≤ x ∨ y < pad ∨ pad + src.height ≤ y) →
      (padTransparentPng src mf).px x y c = 0) ∧
    (∀ x y c, x < src.width → y < src.height → c < 4 →
      (padTransparentPng src mf).px (x + pad) (y + pad) c = src.px x y c) := by
  have hpa : padAmount src.width src.height mf = pad := by
    have hm : max 0 mf = mf := max_eq_right hmf0
    have : padAmount src.width src.height mf
        = (max 1 ⌊((min src.width src.height : ℕ) : ℚ) * mf⌋).toNat := by
      simp [padAmount, jsFloor, hm]
    rw [this, ← hpad, Int.toNat_natCast]
  set w := src.width with hwdef
  set h := src.height with hhdef
  set outW := w + 2 * pad with houtW
  have hwle : pad + w ≤ outW := by omega
  have hWidth : (padTransparentPng src mf).width = outW := by
    simp [padTransparentPng, hpa]
  have hHeight : (padTransparentPng src mf).height = h + 2 * pad := by
    simp [padTransparentPng, hpa]
  refine ⟨hWidth, hHeight, ?_, ?_⟩
  · intro x y c hxlt hylt hc hborder
    have hpx : (padTransparentPng src mf).px x y c
        = copyRows h (w * 4) (fun y => ((y + pad) * outW + pad) * 4)
            (fun y => y * w * 4) src.data (fun _ => 0)
            ((y * outW + x) * 4 + c) := by
      simp [padTransparentPng, Raster.px, hpa]
    rw [hpx, copyRows_miss]
    intro y' hy'
    by_cases hne : y = y' + pad
    · rintro ⟨h1, h2⟩
      rw [hne] at h1 h2
      omega
    · exact row_range_disjoint outW pad pad w y x c y' hwle (by omega) hc hne
  · intro x y c hxlt hylt hc
    have hpx : (padTransparentPng src mf).px (x + pad) (y + pad) c
        = copyRows h (w * 4) (fun y => ((y + pad) * outW + pad) * 4)
            (fun y => y * w * 4) src.data (fun _ => 0)
            (((y + pad) * outW + (x + pad)) * 4 + c) := by
      simp [padTransparentPng, Raster.px, hpa]
    rw [hpx, copyRows_hit h (w * 4) _ _ src.data _
      (fun a b hab hbr => row_starts_mono outW pad pad w hwle a b hab)
      y hylt _ (by omega) (by omega)]
    show src.data (y * w * 4 + _) = src.px x y c
    have harg : y * w * 4 + (((y + pad) * outW + (x + pad)) * 4 + c
        - ((y + pad) * outW + pad) * 4) = (y * w + x) * 4 + c := by
      omega
    rw [harg]
    rfl

/-- Witness for C2 at `exRaster` and `marginFraction = 1/4`
(`pad = max(1, floor(2 * 1/4)) = 1`). -/
theorem padTransparentPng_spec_witness :
    1 ≤ exRaster.width ∧ 1 ≤ exRaster.height ∧ (0 : ℚ) ≤ 1/4 ∧ (1/4 : ℚ) < 1 ∧
    ((1 : ℕ) : ℤ) = max 1 ⌊((min exRaster.width exRaster.height : ℕ) : ℚ) * (1/4)⌋ ∧
    (padTransparentPng exRaster (1/4)).width = 4 ∧
    (padTransparentPng exRaster (1/4)).px 0 0 0 = 0 ∧
    (padTransparentPng exRaster (1/4)).px 2 2 3 = exRaster.px 1 1 3 := by
  have h1 : (1 ≤ exRaster.width) := by decide
  have h2 : (1 ≤ exRaster.height) := by decide
  have h3 : (0 : ℚ) ≤ 1/4 := by norm_num
  have h4 : (1/4 : ℚ) < 1 := by norm_num
  have h5 : ((1 : ℕ) : ℤ) = max 1 ⌊((min exRaster.width exRaster.height : ℕ) : ℚ) * (1/4)⌋ := by
    norm_num [exRaster]
  obtain ⟨hW, hH, hB, hI⟩ := padTransparentPng_spec exRaster (1/4) 1 h1 h2 h3 h4 h5
  refine ⟨h1, h2, h3, h4, h5, by simpa using hW, ?_, ?_⟩
  · exact hB 0 0 0 (by simp [exRaster]) (by simp [exRaster]) (by norm_num) (by simp)
  · simpa using hI 1 1 3 (by decide) (by decide) (by norm_num)

/-! ### Arithmetic facts about `Math.round` / `Math.floor` on the scale
computations -/

theorem floor_half_rat : ⌊(1/2 : ℚ)⌋ = 0 := by
  rw [Int.floor_eq_zero_iff]
  constructor <;> norm_num

theorem jsRound_natCast (t : ℕ) : jsRound (t : ℚ) = t := by
  have : ((t : ℚ) + 1/2) = ((t : ℤ) : ℚ) + 1/2 := by push_cast; ring
  rw [jsRound, this, Int.floor_int_add, floor_half_rat, add_zero]

theorem jsRound_le_nat (q : ℚ) (t : ℕ) (h : q ≤ t) : jsRound q ≤ (t : ℤ) := by
  calc jsRound q ≤ jsRound (t : ℚ) := Int.floor_le_floor (by linarith)
    _ = t := jsRound_natCast t

theorem nat_le_jsRound (t : ℕ) (q : ℚ) (h : (t : ℚ) ≤ q) : (t : ℤ) ≤ jsRound q := by
  calc (t : ℤ) = jsRound (t : ℚ) := (jsRound_natCast t).symm
    _ ≤ jsRound q := Int.floor_le_floor (by linarith)

theorem scaledDim_le (n t : ℕ) (scale : ℚ) (ht : 1 ≤ t) (h : (n : ℚ) * scale ≤ t) :
    scaledDim n scale ≤ t := by
  rw [scaledDim, Int.toNat_le]
  exact max_le (by exact_mod_cast ht) (jsRound_le_nat _ t h)

theorem le_scaledDim (t n : ℕ) (scale : ℚ) (h : (t : ℚ) ≤ (n : ℚ) * scale) :
    t ≤ scaledDim n scale := by
  have h1 : (t : ℤ) ≤ max 1 (jsRound ((n : ℚ) * scale)) :=
    le_trans (nat_le_jsRound t _ h) (le_max_right _ _)
  rw [scaledDim]
  omega

theorem one_le_scaledDim (n : ℕ) (scale : ℚ) : 1 ≤ scaledDim n scale := by
  rw [scaledDim]
  have := le_max_left 1 (jsRound ((n : ℚ) * scale))
  omega

theorem containScale_mul_width_le (src : Raster) (tW tH : ℕ)
    (hw : 0 < src.width) :
    (src.width : ℚ) * containScale src tW tH ≤ tW := by
  have hw' : (0 : ℚ) < src.width := by exact_mod_cast hw
  calc (src.width : ℚ) * containScale src tW tH
      ≤ (src.width : ℚ) * ((tW : ℚ) / src.width) :=
        mul_le_mul_of_nonneg_left (min_le_left _ _) (le_of_lt hw')
    _ = tW := by field_simp

theorem containScale_mul_height_le (src : Raster) (tW tH : ℕ)
    (hh : 0 < src.height) :
    (src.height : ℚ) * containScale src tW tH ≤ tH := by
  have hh' : (0 : ℚ) < src.height := by exact_mod_cast hh
  calc (src.height : ℚ) * containScale src tW tH
      ≤ (src.height : ℚ) * ((tH : ℚ) / src.height) :=
        mul_le_mul_of_nonneg_left (min_le_right _ _) (le_of_lt hh')
    _ = tH := by field_simp

theorem le_coverScale_mul_width (src : Raster) (tW tH : ℕ)
    (hw : 0 < src.width) :
    (tW : ℚ) ≤ (src.width : ℚ) * coverScale src tW tH := by
  have hw' : (0 : ℚ) < src.width := by exact_mod_cast hw
  calc (tW : ℚ) = (src.width : ℚ) * ((tW : ℚ) / src.width) := by field_simp
    _ ≤ (src.width : ℚ) * coverScale src tW tH :=
        mul_le_mul_of_nonneg_left (le_max_left _ _) (le_of_lt hw')

theorem le_coverScale_mul_height (src : Raster) (tW tH : ℕ)
    (hh : 0 < src.height) :
    (tH : ℚ) ≤ (src.height : ℚ) * coverScale src tW tH := by
  have hh' : (0 : ℚ) < src.height := by exact_mod_cast hh
  calc (tH : ℚ) = (src.height : ℚ) * ((tH : ℚ) / src.height) := by field_simp
    _ ≤ (src.height : ℚ) * coverScale src tW tH :=
        mul_le_mul_of_nonneg_left (le_max_right _ _) (le_of_lt hh')

/-- The centering expression `Math.max(0, Math.floor((a - b)/2))` equals the
natural-number `(a - b) / 2` whenever `b ≤ a`. -/
theorem center_offset_toNat (a b : ℕ) (h : b ≤ a) :
    (max 0 (jsFloor (((a : ℚ) - b) / 2))).toNat = (a - b) / 2 := by
  have hcast : ((a : ℚ) - b) / 2 = (((a - b : ℕ) : ℤ) : ℚ) / ((2 : ℕ) : ℚ) := by
    push_cast [h]
    ring
  rw [jsFloor, hcast, Rat.floor_intCast_div_natCast]
  have : ((a - b : ℕ) : ℤ) / ((2 : ℕ) : ℤ) = (((a - b) / 2 : ℕ) : ℤ) :=
    (Int.natCast_div _ _).symm
  rw [this]
  omega

/-! ### Claim C1: contain-mode resampling -/

/-- Claim C1: for every source with `width, height ≥ 1` and target with
`targetW, targetH ≥ 1`, contain-mode resampling returns a raster of exactly
`targetW × targetH`; the scaled content of size
`max(1, round(srcW*scale)) × max(1, round(srcH*scale))` with
`scale = min(targetW/srcW, targetH/srcH)` fits inside the target box on both
axes (nothing is cropped), is placed centered at offset
`(⌊(targetW-scaledW)/2⌋, ⌊(targetH-scaledH)/2⌋)`, and every pixel outside the
placed content is fully transparent `(0,0,0,0)`. -/
theorem resizeContain_spec (src : Raster) (tW tH sW sH offX offY : ℕ)
    (hw : 1 ≤ src.width) (hh : 1 ≤ src.height) (htw : 1 ≤ tW) (hth : 1 ≤ tH)
    (hsW : sW = scaledDim src.width (containScale src tW tH))
    (hsH : sH = scaledDim src.height (containScale src tW tH))
    (hoX : offX = (tW - sW) / 2) (hoY : offY = (tH - sH) / 2) :
    (resizeContainWithPngjs src tW tH).width = tW ∧
    (resizeContainWithPngjs src tW tH).height = tH ∧
    sW ≤ tW ∧ sH ≤ tH ∧
    (∀ x y c, x < sW → y < sH → c < 4 →
      (resizeContainWithPngjs src tW tH).px (offX + x) (offY + y) c
        = (containScaled src tW tH).px x y c) ∧
    (∀ x y c, x < tW → y < tH → c < 4 →
      ¬ (offX ≤ x ∧ x < offX + sW ∧ offY ≤ y ∧ y < offY + sH) →
      (resizeContainWithPngjs src tW tH).px x y c = 0) := by
  have hCW : (containScaled src tW tH).width = sW := hsW.symm
  have hCH : (containScaled src tW tH).height = sH := hsH.symm
  have hsWle : sW ≤ tW := by
    rw [hsW]
    exact scaledDim_le _ _ _ htw (containScale_mul_width_le src tW tH (by omega))
  have hsHle : sH ≤ tH := by
    rw [hsH]
    exact scaledDim_le _ _ _ hth (containScale_mul_height_le src tW tH (by omega))
  have hoffX : containOffX src tW tH = offX := by
    rw [containOffX, hCW, center_offset_toNat tW sW hsWle]
    omega
  have hoffY : containOffY src tW tH = offY := by
    rw [containOffY, hCH, center_offset_toNat tH sH hsHle]
    omega
  have hOXle : offX + sW ≤ tW := by omega
  refine ⟨rfl, rfl, hsWle, hsHle, ?_, ?_⟩
  · intro x y c hx hy hc
    have hcomm : (offY + y) * tW = (y + offY) * tW := by ring
    have hpx : (resizeContainWithPngjs src tW tH).px (offX + x) (offY + y) c
        = copyRows sH (sW * 4)
            (fun r => ((r + offY) * tW + offX) * 4)
            (fun r => r * sW * 4)
            (containScaled src tW tH).data (fun _ => 0)
            (((offY + y) * tW + (offX + x)) * 4 + c) := by
      simp only [resizeContainWithPngjs, Raster.px, hCW, hCH, hoffX, hoffY]
    have hb1 : (fun r => ((r + offY) * tW + offX) * 4) y
        ≤ ((offY + y) * tW + (offX + x)) * 4 + c := by
      show ((y + offY) * tW + offX) * 4 ≤ _
      omega
    have hb2 : ((offY + y) * tW + (offX + x)) * 4 + c
        < (fun r => ((r + offY) * tW + offX) * 4) y + sW * 4 := by
      show _ < ((y + offY) * tW + offX) * 4 + sW * 4
      omega
    have hres := copyRows_hit sH (sW * 4)
      (fun r => ((r + offY) * tW + offX) * 4) (fun r => r * sW * 4)
      (containScaled src tW tH).data (fun _ => 0)
      (fun a b hab hbr => row_starts_mono tW offX offY sW hOXle a b hab)
      y hy (((offY + y) * tW + (offX + x)) * 4 + c) hb1 hb2
    rw [hpx, hres]
    show (containScaled src tW tH).data
      (y * sW * 4 + (((offY + y) * tW + (offX + x)) * 4 + c
        - ((y + offY) * tW + offX) * 4)) = _
    have harg : y * sW * 4 + (((offY + y) * tW + (offX + x)) * 4 + c
        - ((y + offY) * tW + offX) * 4) = (y * sW + x) * 4 + c := by
      omega
    rw [harg, Raster.px, hCW]
  · intro x y c hx hy hc hnp
    have hpx : (resizeContainWithPngjs src tW tH).px x y c
        = copyRows sH (sW * 4)
            (fun r => ((r + offY) * tW + offX) * 4)
            (fun r => r * sW * 4)
            (containScaled src tW tH).data (fun _ => 0)
            ((y * tW + x) * 4 + c) := by
      simp only [resizeContainWithPngjs, Raster.px, hCW, hCH, hoffX, hoffY]
    rw [hpx, copyRows_miss]
    intro y' hy'
    by_cases hne : y = y' + offY
    · rintro ⟨h1, h2⟩
      rw [hne] at h1 h2
      omega
    · exact row_range_disjoint tW offX offY sW y x c y' hOXle hx hc hne

/-- Witness for C1 at `exRaster` (2×2) with target 4×2:
`scale = min(2,1) = 1`, scaled content 2×2, offsets `(1, 0)`. -/
theorem resizeContain_spec_witness :
    1 ≤ exRaster.width ∧ 1 ≤ exRaster.height ∧ (1 : ℕ) ≤ 4 ∧ (1 : ℕ) ≤ 2 ∧
    (2 : ℕ) = scaledDim exRaster.width (containScale exRaster 4 2) ∧
    (2 : ℕ) = scaledDim exRaster.height (containScale exRaster 4 2) ∧
    (1 : ℕ) = (4 - 2) / 2 ∧ (0 : ℕ) = (2 - 2) / 2 ∧
    (resizeContainWithPngjs exRaster 4 2).width = 4 ∧
    (2 : ℕ) ≤ 4 ∧
    (resizeContainWithPngjs exRaster 4 2).px (1 + 0) (0 + 0) 0
      = (containScaled exRaster 4 2).px 0 0 0 ∧
    (resizeContainWithPngjs exRaster 4 2).px 0 0 0 = 0 := by
  have h1 : 1 ≤ exRaster.width := by decide
  have h2 : 1 ≤ exRaster.height := by decide
  have h3 : (1 : ℕ) ≤ 4 := by norm_num
  have h4 : (1 : ℕ) ≤ 2 := by norm_num
  have hscale : containScale exRaster 4 2 = 1 := by
    rw [containScale]
    norm_num [exRaster]
  have h5 : (2 : ℕ) = scaledDim exRaster.width (containScale exRaster 4 2) := by
    rw [hscale]
    norm_num [scaledDim, jsRound, exRaster]
    all_goals omega
  have h6 : (2 : ℕ) = scaledDim exRaster.height (containScale exRaster 4 2) := by
    rw [hscale]
    norm_num [scaledDim, jsRound, exRaster]
    all_goals omega
  have h7 : (1 : ℕ) = (4 - 2) / 2 := by norm_num
  have h8 : (0 : ℕ) = (2 - 2) / 2 := by norm_num
  obtain ⟨hA, hB, hC, hD, hI, hO⟩ :=
    resizeContain_spec exRaster 4 2 2 2 1 0 h1 h2 h3 h4 h5 h6 h7 h8
  exact ⟨h1, h2, h3, h4, h5, h6, h7, h8, hA, hC,
    hI 0 0 0 (by norm_num) (by norm_num) (by norm_num),
    hO 0 0 0 (by norm_num) (by norm_num) (by norm_num) (by omega)⟩

/-! ### Claim C3: cover-mode resampling -/

/-- Claim C3: for every source with `width, height ≥ 1` and target with
`targetW, targetH ≥ 1`, cover-mode resampling scales by
`scale = max(targetW/srcW, targetH/srcH)` so that the scaled content covers
the target box on both axes before cropping, and the output is the scaled
content center-cropped (crop offset `⌊(scaled - target)/2⌋` per axis) to
exactly `targetW × targetH` pixels. -/
theorem resizeCover_spec (src : Raster) (tW tH sW sH cropX cropY : ℕ)
    (hw : 1 ≤ src.width) (hh : 1 ≤ src.height) (htw : 1 ≤ tW) (hth : 1 ≤ tH)
    (hsW : sW = scaledDim src.width (coverScale src tW tH))
    (hsH : sH = scaledDim src.height (coverScale src tW tH))
    (hcX : cropX = (sW - tW) / 2) (hcY : cropY = (sH - tH) / 2) :
    (resizeCoverWithPngjs src tW tH).width = tW ∧
    (resizeCoverWithPngjs src tW tH).height = tH ∧
    tW ≤ sW ∧ tH ≤ sH ∧
    (∀ x y c, x < tW → y < tH → c < 4 →
      (resizeCoverWithPngjs src tW tH).px x y c
        = (coverScaled src tW tH).px (x + cropX) (y + cropY) c) := by
  have hCW : (coverScaled src tW tH).width = sW := hsW.symm
  have hCH : (coverScaled src tW tH).height = sH := hsH.symm
  have hsWge : tW ≤ sW := by
    rw [hsW]
    exact le_scaledDim _ _ _ (le_coverScale_mul_width src tW tH (by omega))
  have hsHge : tH ≤ sH := by
    rw [hsH]
    exact le_scaledDim _ _ _ (le_coverScale_mul_height src tW tH (by omega))
  have hcropX : coverCropX src tW tH = cropX := by
    rw [coverCropX, hCW, center_offset_toNat sW tW hsWge]
    omega
  have hcropY : coverCropY src tW tH = cropY := by
    rw [coverCropY, hCH, center_offset_toNat sH tH hsHge]
    omega
  refine ⟨rfl, rfl, hsWge, hsHge, ?_⟩
  intro x y c hx hy hc
  obtain ⟨d1, d2, d3, d4⟩ := pxIndex_decomp tW x y c hx hc
  have hlt : y * tW + x < tW * tH := by
    have k : y * tW + tW ≤ tH * tW := by
      calc y * tW + tW = (y + 1) * tW := by ring
        _ ≤ tH * tW := Nat.mul_le_mul_right _ (by omega)
    have k2 : tH * tW = tW * tH := by ring
    omega
  show (if ((y * tW + x) * 4 + c) / 4 < tW * tH then
      (coverScaled src tW tH).px
        (((y * tW + x) * 4 + c) / 4 % tW + coverCropX src tW tH)
        (((y * tW + x) * 4 + c) / 4 / tW + coverCropY src tW tH)
        (((y * tW + x) * 4 + c) % 4)
    else 0) = (coverScaled src tW tH).px (x + cropX) (y + cropY) c
  rw [d1, d2, d3, d4, hcropX, hcropY, if_pos hlt]

/-- Witness for C3 at `exRaster` (2×2) with target 2×4:
`scale = max(1, 2) = 2`, scaled content 4×4, crop offsets `(1, 0)`. -/
theorem resizeCover_spec_witness :
    1 ≤ exRaster.width ∧ 1 ≤ exRaster.height ∧ (1 : ℕ) ≤ 2 ∧ (1 : ℕ) ≤ 4 ∧
    (4 : ℕ) = scaledDim exRaster.width (coverScale exRaster 2 4) ∧
    (4 : ℕ) = scaledDim exRaster.height (coverScale exRaster 2 4) ∧
    (1 : ℕ) = (4 - 2) / 2 ∧ (0 : ℕ) = (4 - 4) / 2 ∧
    (resizeCoverWithPngjs exRaster 2 4).width = 2 ∧
    (2 : ℕ) ≤ 4 ∧
    (resizeCoverWithPngjs exRaster 2 4).px 0 0 0
      = (coverScaled exRaster 2 4).px (0 + 1) (0 + 0) 0 := by
  have h1 : 1 ≤ exRaster.width := by decide
  have h2 : 1 ≤ exRaster.height := by decide
  have h3 : (1 : ℕ) ≤ 2 := by norm_num
  have h4 : (1 : ℕ) ≤ 4 := by norm_num
  have hscale : coverScale exRaster 2 4 = 2 := by
    rw [coverScale]
    norm_num [exRaster]
  have h5 : (4 : ℕ) = scaledDim exRaster.width (coverScale exRaster 2 4) := by
    rw [hscale]
    norm_num [scaledDim, jsRound, exRaster]
    all_goals omega
  have h6 : (4 : ℕ) = scaledDim exRaster.height (coverScale exRaster 2 4) := by
    rw [hscale]
    norm_num [scaledDim, jsRound, exRaster]
    all_goals omega
  have h7 : (1 : ℕ) = (4 - 2) / 2 := by norm_num
  have h8 : (0 : ℕ) = (4 - 4) / 2 := by norm_num
  obtain ⟨hA, hB, hC, hD, hI⟩ :=
    resizeCover_spec exRaster 2 4 4 4 1 0 h1 h2 h3 h4 h5 h6 h7 h8
  exact ⟨h1, h2, h3, h4, h5, h6, h7, h8, hA, hC,
    hI 0 0 0 (by norm_num) (by norm_num) (by norm_num)⟩

/-! ### Claim C4: the claimed bilinear sampling bounds fail -/

/-- Counterexample to C4 as stated.  Every channel-0 byte of the 2×2 source
`exC4` is at least 200, yet contain-resampling it to 8×8 (an upscale,
`scale = 4`) produces the value 179 at destination pixel `(0,0)` — strictly
below the minimum of the four neighbouring source pixels, because at the
boundary the unclamped weight `gx - max(0, floor(gx)) = -3/8` is negative.
Cover mode is not bilinear at all (it is nearest-neighbour). -/
theorem resample_bilinear_counterexample :
    (∀ x, x < 2 → ∀ y, y < 2 → 200 ≤ exC4.px x y 0) ∧
    (resizeContainWithPngjs exC4 8 8).px 0 0 0 = 179 ∧
    (resizeContainWithPngjs exC4 8 8).px 0 0 0 < 200 := by
  have hscale : containScale exC4 8 8 = 4 := by
    rw [containScale]
    norm_num [exC4]
  have hsdW : scaledDim exC4.width (containScale exC4 8 8) = 8 := by
    rw [hscale]
    norm_num [scaledDim, jsRound, exC4]
    all_goals omega
  have hsdH : scaledDim exC4.height (containScale exC4 8 8) = 8 := by
    rw [hscale]
    norm_num [scaledDim, jsRound, exC4]
    all_goals omega
  have hW : (containScaled exC4 8 8).width = 8 := by
    simp only [containScaled]
    exact hsdW
  have hH : (containScaled exC4 8 8).height = 8 := by
    simp only [containScaled]
    exact hsdH
  have hoffX : containOffX exC4 8 8 = 0 := by
    rw [containOffX, hW]
    norm_num [jsFloor]
  have hoffY : containOffY exC4 8 8 = 0 := by
    rw [containOffY, hH]
    norm_num [jsFloor]
  have hbil : bilinearAt exC4 (containScale exC4 8 8) 0 0 0 = 179 := by
    rw [hscale]
    norm_num [bilinearAt, sampleCoord, clampFloor, jsFloor, jsRound, Raster.px, exC4]
    all_goals omega
  have hdata0 : (containScaled exC4 8 8).data 0 = 179 := by
    simp only [containScaled]
    rw [hsdW, hsdH]
    norm_num
    exact hbil
  have hpx : (resizeContainWithPngjs exC4 8 8).px 0 0 0 = 179 := by
    simp only [resizeContainWithPngjs, Raster.px, hW, hH, hoffX, hoffY]
    rw [copyRows_hit 8 (8 * 4) (fun y => ((y + 0) * 8 + 0) * 4) (fun y => y * 8 * 4)
      (containScaled exC4 8 8).data (fun _ => 0)
      (fun a b hab hbr => row_starts_mono 8 0 0 8 (by norm_num) a b hab)
      0 (by norm_num) ((0 * 8 + 0) * 4 + 0) (by norm_num) (by norm_num)]
    show (containScaled exC4 8 8).data (0 * 8 * 4 + ((0 * 8 + 0) * 4 + 0 - ((0 + 0) * 8 + 0) * 4)) = 179
    norm_num
    exact hdata0
  exact ⟨by decide, hpx, by rw [hpx]; norm_num⟩

/-! ### Helpers for the amended resampling statement -/

theorem convex_combo_bounds (a b w m M : ℚ) (hw0 : 0 ≤ w) (hw1 : w ≤ 1)
    (ham : m ≤ a) (haM : a ≤ M) (hbm : m ≤ b) (hbM : b ≤ M) :
    m ≤ a * (1 - w) + b * w ∧ a * (1 - w) + b * w ≤ M := by
  have p1 : 0 ≤ (a - m) * (1 - w) := mul_nonneg (by linarith) (by linarith)
  have p2 : 0 ≤ (b - m) * w := mul_nonneg (by linarith) hw0
  have p3 : 0 ≤ (M - a) * (1 - w) := mul_nonneg (by linarith) (by linarith)
  have p4 : 0 ≤ (M - b) * w := mul_nonneg (by linarith) hw0
  constructor <;> nlinarith [p1, p2, p3, p4]

theorem clampFloor_cast (g : ℚ) (hg : 0 ≤ g) :
    ((clampFloor g : ℕ) : ℚ) = (⌊g⌋ : ℚ) := by
  have h0 : 0 ≤ ⌊g⌋ := Int.floor_nonneg.mpr hg
  rw [clampFloor, jsFloor, max_eq_right h0]
  exact_mod_cast Int.toNat_of_nonneg h0

theorem fract_bounds (g : ℚ) (hg : 0 ≤ g) :
    0 ≤ g - ((clampFloor g : ℕ) : ℚ) ∧ g - ((clampFloor g : ℕ) : ℚ) ≤ 1 := by
  rw [clampFloor_cast g hg]
  constructor
  · linarith [Int.floor_le g]
  · linarith [Int.lt_floor_add_one g]

/-- Claim C4 amended.  Only contain mode uses bilinear interpolation with
half-pixel-center sampling; cover mode is nearest-neighbour, every output
pixel being a verbatim copy of the source pixel at
`(min(srcW-1, ⌊x/scale⌋), min(srcH-1, ⌊y/scale⌋))`.  In contain mode only
the interpolation *indices* are clamped to `[0, srcSize-1]`; the weights
are not, so the weights-in-`[0,1]` / between-min-and-max guarantee holds
for a destination pixel exactly when its sample coordinates are
nonnegative (which fails at the leading boundary whenever `scale > 1`). -/
theorem resample_modes_amended :
    (∀ (src : Raster) (tW tH x y c : ℕ),
      x < scaledDim src.width (coverScale src tW tH) →
      y < scaledDim src.height (coverScale src tW tH) → c < 4 →
      (coverScaled src tW tH).px x y c
        = src.px (min (src.width - 1) (jsFloor ((x : ℚ) / coverScale src tW tH)).toNat)
            (min (src.height - 1) (jsFloor ((y : ℚ) / coverScale src tW tH)).toNat) c) ∧
    (∀ (src : Raster) (scale : ℚ) (x y c x0 x1 y0 y1 : ℕ),
      (∀ a b k, src.px a b k ≤ 255) →
      0 ≤ sampleCoord x scale → 0 ≤ sampleCoord y scale →
      x0 = clampFloor (sampleCoord x scale) → x1 = min (src.width - 1) (x0 + 1) →
      y0 = clampFloor (sampleCoord y scale) → y1 = min (src.height - 1) (y0 + 1) →
      min (min (src.px x0 y0 c) (src.px x1 y0 c)) (min (src.px x0 y1 c) (src.px x1 y1 c))
          ≤ bilinearAt src scale x y c ∧
        bilinearAt src scale x y c
          ≤ max (max (src.px x0 y0 c) (src.px x1 y0 c))
              (max (src.px x0 y1 c) (src.px x1 y1 c))) := by
  constructor
  · intro src tW tH x y c hx hy hc
    obtain ⟨d1, d2, d3, d4⟩ :=
      pxIndex_decomp (scaledDim src.width (coverScale src tW tH)) x y c hx hc
    have hlt : y * scaledDim src.width (coverScale src tW tH) + x
        < scaledDim src.width (coverScale src tW tH)
          * scaledDim src.height (coverScale src tW tH) := by
      have k : y * scaledDim src.width (coverScale src tW tH)
          + scaledDim src.width (coverScale src tW tH)
          ≤ scaledDim src.height (coverScale src tW tH)
            * scaledDim src.width (coverScale src tW tH) := by
        calc y * scaledDim src.width (coverScale src tW tH)
              + scaledDim src.width (coverScale src tW tH)
            = (y + 1) * scaledDim src.width (coverScale src tW tH) := by ring
          _ ≤ scaledDim src.height (coverScale src tW tH)
              * scaledDim src.width (coverScale src tW tH) :=
            Nat.mul_le_mul_right _ (by omega)
      have k2 : scaledDim src.height (coverScale src tW tH)
          * scaledDim src.width (coverScale src tW tH)
          = scaledDim src.width (coverScale src tW tH)
            * scaledDim src.height (coverScale src tW tH) := by ring
      omega
    simp only [coverScaled, Raster.px]
    rw [d1, d2, d3, d4, if_pos hlt]
  · intro src scale x y c x0 x1 y0 y1 hbytes hgx0 hgy0 hx0 hx1 hy0 hy1
    subst hx0 hx1 hy0 hy1
    obtain ⟨hwx0, hwx1⟩ := fract_bounds (sampleCoord x scale) hgx0
    obtain ⟨hwy0, hwy1⟩ := fract_bounds (sampleCoord y scale) hgy0
    simp only [bilinearAt]
    set X0 := clampFloor (sampleCoord x scale) with hX0
    set Y0 := clampFloor (sampleCoord y scale) with hY0
    set X1 := min (src.width - 1) (X0 + 1) with hX1
    set Y1 := min (src.height - 1) (Y0 + 1) with hY1
    set a00 := src.px X0 Y0 c with ha00
    set a10 := src.px X1 Y0 c with ha10
    set a01 := src.px X0 Y1 c with ha01
    set a11 := src.px X1 Y1 c with ha11
    set mN := min (min a00 a10) (min a01 a11) with hmN
    set MN := max (max a00 a10) (max a01 a11) with hMN
    set wx : ℚ := sampleCoord x scale - (X0 : ℚ) with hwx
    set wy : ℚ := sampleCoord y scale - (Y0 : ℚ) with hwy
    have hm00 : mN ≤ a00 := by omega
    have hm10 : mN ≤ a10 := by omega
    have hm01 : mN ≤ a01 := by omega
    have hm11 : mN ≤ a11 := by omega
    have hM00 : a00 ≤ MN := by omega
    have hM10 : a10 ≤ MN := by omega
    have hM01 : a01 ≤ MN := by omega
    have hM11 : a11 ≤ MN := by omega
    have hv0 := convex_combo_bounds (a00 : ℚ) (a10 : ℚ) wx (mN : ℚ) (MN : ℚ)
      hwx0 hwx1 (by exact_mod_cast hm00) (by exact_mod_cast hM00)
      (by exact_mod_cast hm10) (by exact_mod_cast hM10)
    have hv1 := convex_combo_bounds (a01 : ℚ) (a11 : ℚ) wx (mN : ℚ) (MN : ℚ)
      hwx0 hwx1 (by exact_mod_cast hm01) (by exact_mod_cast hM01)
      (by exact_mod_cast hm11) (by exact_mod_cast hM11)
    have hv := convex_combo_bounds ((a00 : ℚ) * (1 - wx) + (a10 : ℚ) * wx)
      ((a01 : ℚ) * (1 - wx) + (a11 : ℚ) * wx) wy (mN : ℚ) (MN : ℚ)
      hwy0 hwy1 hv0.1 hv0.2 hv1.1 hv1.2
    have hr1 : (mN : ℤ) ≤ jsRound (((a00 : ℚ) * (1 - wx) + (a10 : ℚ) * wx) * (1 - wy)
        + ((a01 : ℚ) * (1 - wx) + (a11 : ℚ) * wx) * wy) :=
      nat_le_jsRound mN _ hv.1
    have hr2 : jsRound (((a00 : ℚ) * (1 - wx) + (a10 : ℚ) * wx) * (1 - wy)
        + ((a01 : ℚ) * (1 - wx) + (a11 : ℚ) * wx) * wy) ≤ (MN : ℤ) :=
      jsRound_le_nat _ MN hv.2
    have hMN255 : MN ≤ 255 := by
      have b1 := hbytes X0 Y0 c
      have b2 := hbytes X1 Y0 c
      have b3 := hbytes X0 Y1 c
      have b4 := hbytes X1 Y1 c
      omega
    have hmod : jsRound (((a00 : ℚ) * (1 - wx) + (a10 : ℚ) * wx) * (1 - wy)
        + ((a01 : ℚ) * (1 - wx) + (a11 : ℚ) * wx) * wy) % 256
        = jsRound (((a00 : ℚ) * (1 - wx) + (a10 : ℚ) * wx) * (1 - wy)
        + ((a01 : ℚ) * (1 - wx) + (a11 : ℚ) * wx) * wy) :=
      Int.emod_eq_of_lt (by omega) (by omega)
    rw [hmod]
    omega

/-- Witness for the amended C4: cover-NN at `exRaster` scaled 2×4, and the
contain bilinear bounds at `exC4` with downscale factor `1/2` (where the
sample coordinates are nonnegative). -/
theorem resample_modes_amended_witness :
    (0 : ℕ) < 4 ∧ (0 : ℚ) ≤ sampleCoord 0 (1/2) ∧
    (coverScaled exRaster 2 4).px 0 0 0
      = exRaster.px
          (min (exRaster.width - 1) (jsFloor ((0 : ℚ) / coverScale exRaster 2 4)).toNat)
          (min (exRaster.height - 1) (jsFloor ((0 : ℚ) / coverScale exRaster 2 4)).toNat) 0 ∧
    (min (min (exC4.px 0 0 0) (exC4.px 1 0 0)) (min (exC4.px 0 1 0) (exC4.px 1 1 0))
        ≤ bilinearAt exC4 (1/2) 0 0 0 ∧
      bilinearAt exC4 (1/2) 0 0 0
        ≤ max (max (exC4.px 0 0 0) (exC4.px 1 0 0))
            (max (exC4.px 0 1 0) (exC4.px 1 1 0))) := by
  have hscale : coverScale exRaster 2 4 = 2 := by
    rw [coverScale]
    norm_num [exRaster]
  have hsdW : scaledDim exRaster.width (coverScale exRaster 2 4) = 4 := by
    rw [hscale]
    norm_num [scaledDim, jsRound, exRaster]
    all_goals omega
  have hsdH : scaledDim exRaster.height (coverScale exRaster 2 4) = 4 := by
    rw [hscale]
    norm_num [scaledDim, jsRound, exRaster]
    all_goals omega
  have hbytes : ∀ a b k, exC4.px a b k ≤ 255 := by
    intro a b k
    simp only [exC4, Raster.px]
    split_ifs <;> norm_num
  have hgx : (0 : ℚ) ≤ sampleCoord 0 (1/2) := by norm_num [sampleCoord]
  have h0 : (0 : ℕ) = clampFloor (sampleCoord 0 (1/2)) := by
    norm_num [clampFloor, sampleCoord, jsFloor]
  have h1 : (1 : ℕ) = min (exC4.width - 1) (0 + 1) := by decide
  have h3 : (1 : ℕ) = min (exC4.height - 1) (0 + 1) := by decide
  refine ⟨by norm_num, hgx, ?_, ?_⟩
  · exact resample_modes_amended.1 exRaster 2 4 0 0 0 (by omega) (by omega) (by norm_num)
  · exact resample_modes_amended.2 exC4 (1/2) 0 0 0 0 1 0 1 hbytes hgx hgx h0 h1 h0 h3

/-! ### Claim C9: format normalizer -/

/-- Counterexample to C9 as stated: the 8-byte buffer consisting of exactly
the PNG magic signature starts with the signature, yet `isPng` requires
`length > 8` strictly, so `ensurePng` falls through to the decoder chain and
(with every decoder failing) returns the bytes tagged as unverified
(`false`), not as PNG. -/
theorem ensurePng_counterexample :
    pngMagic.take 8 = pngMagic ∧
    ensurePng (fun _ => none) pngMagic = (pngMagic, false) := by
  constructor
  · decide
  · decide

/-- Claim C9 amended: the normalizer is total (never raises).  A buffer of
more than 8 bytes starting with the PNG magic signature is returned
unchanged, tagged as PNG; any other buffer on which the decoder chain fails
is returned unchanged, tagged as unverified; and in general the result is
always one of passthrough-as-PNG, decoded output, or
passthrough-as-unverified. -/
theorem ensurePng_spec :
    (∀ d buf, 8 < buf.length → buf.take 8 = pngMagic →
      ensurePng d buf = (buf, true)) ∧
    (∀ d buf, ¬ (8 < buf.length ∧ buf.take 8 = pngMagic) → d buf = none →
      ensurePng d buf = (buf, false)) ∧
    (∀ d buf, ensurePng d buf = (buf, true) ∨
      (∃ out, d buf = some out ∧ ensurePng d buf = (out, false)) ∨
      ensurePng d buf = (buf, false)) := by
  have hiff : ∀ buf : List ℕ,
      isPng buf = true ↔ (8 < buf.length ∧ buf.take 8 = pngMagic) := by
    intro buf
    simp [isPng]
  refine ⟨?_, ?_, ?_⟩
  · intro d buf h1 h2
    rw [ensurePng, if_pos ((hiff buf).mpr ⟨h1, h2⟩)]
  · intro d buf hcond hd
    have hfalse : ¬ isPng buf = true := fun h => hcond ((hiff buf).mp h)
    rw [ensurePng, if_neg hfalse, hd]
  · intro d buf
    by_cases h : isPng buf = true
    · left
      rw [ensurePng, if_pos h]
    · cases hd : d buf with
      | some out =>
          right; left
          exact ⟨out, rfl, by rw [ensurePng, if_neg h, hd]⟩
      | none =>
          right; right
          rw [ensurePng, if_neg h, hd]

/-- Witness for the amended C9: a 9-byte buffer starting with the signature
passes through tagged PNG, and a non-PNG buffer with a failing decoder
passes through tagged unverified. -/
theorem ensurePng_spec_witness :
    8 < (pngMagic ++ [0]).length ∧ (pngMagic ++ [0]).take 8 = pngMagic ∧
    ensurePng (fun _ => none) (pngMagic ++ [0]) = (pngMagic ++ [0], true) ∧
    ensurePng (fun _ => none) [1, 2, 3] = ([1, 2, 3], false) := by
  refine ⟨by decide, by decide, ?_, ?_⟩
  · exact ensurePng_spec.1 (fun _ => none) (pngMagic ++ [0]) (by decide) (by decide)
  · exact ensurePng_spec.2.1 (fun _ => none) [1, 2, 3] (by decide) rfl

/-! ### Claim C6: batch acquisition requests and accounting -/

/-- Claim C6: each attempt requests exactly the current `remaining` count
(visible in `genStep`, which calls the generator at `s.remaining`), and
`remaining = count - accum.length` is an invariant of the loop, holding
initially (for `count ≥ 1`) and preserved by every attempt; consequently
with `count = 3`, cap 6, and a generator delivering exactly 1 usable item
per call, the loop terminates with exactly 3 accumulated items after
exactly 3 attempts and returns them. -/
theorem batchAcquisition_accounting :
    (∀ (α : Type) (count : ℕ), 1 ≤ count →
      (genInit α count).remaining = (count : ℤ) - (genInit α count).accum.length) ∧
    (∀ (α : Type) (g : ℕ → ℕ → List α) (count : ℕ) (fuel : ℕ) (s : GenState α),
      s.remaining = (count : ℤ) - s.accum.length →
      (genRun g count fuel s).remaining
        = (count : ℤ) - (genRun g count fuel s).accum.length) ∧
    generateBasePngs genAlwaysOne 3 = .ok [0, 0, 0] ∧
    (genRun genAlwaysOne 3 6 (genInit ℕ 3)).attempts = 3 ∧
    (genRun genAlwaysOne 3 6 (genInit ℕ 3)).accum.length = 3 := by
  refine ⟨?_, ?_, rfl, by decide, by decide⟩
  · intro α count hc
    simp [genInit]
    omega
  · intro α g count fuel
    induction fuel with
    | zero => intro s hs; exact hs
    | succ n ih =>
        intro s hs
        rw [genRun]
        by_cases hcond : 0 < s.remaining ∧ s.attempts < 6
        · rw [if_pos hcond]
          apply ih
          rw [genStep]
          by_cases hi : (g s.attempts s.remaining.toNat).isEmpty
          · simp only [if_pos hi]
            exact hs
          · simp only [if_neg hi]
        · rw [if_neg hcond]
          exact hs

/-- Witness for C6's universally quantified parts at the concrete
one-item-per-call run. -/
theorem batchAcquisition_accounting_witness :
    1 ≤ 3 ∧
    (genInit ℕ 3).remaining = (3 : ℤ) - (genInit ℕ 3).accum.length ∧
    (genRun genAlwaysOne 3 6 (genInit ℕ 3)).remaining
      = (3 : ℤ) - (genRun genAlwaysOne 3 6 (genInit ℕ 3)).accum.length := by
  refine ⟨by norm_num, ?_, ?_⟩
  · exact batchAcquisition_accounting.1 ℕ 3 (by norm_num)
  · exact batchAcquisition_accounting.2.1 ℕ genAlwaysOne 3 6 (genInit ℕ 3)
      (batchAcquisition_accounting.1 ℕ 3 (by norm_num))

/-! ### Claim C7: exhaustion behaviour -/

/-- Counterexample to C7 as stated: with a generator that delivers one item
on the first attempt and nothing afterwards (`count = 3`), the loop exhausts
its 6 attempts with `remaining = 2 > 0` and a non-empty accumulator, and
`generateBasePngs` RETURNS the partial list `[5]` (the shortfall is only a
logged warning) instead of raising `InsufficientCandidates`. -/
theorem batchAcquisition_exhaustion_counterexample :
    (genRun genOnceOne 3 6 (genInit ℕ 3)).attempts = 6 ∧
    (genRun genOnceOne 3 6 (genInit ℕ 3)).remaining = 2 ∧
    generateBasePngs genOnceOne 3 = .ok [5]  := by
  refine ⟨by decide, by decide, rfl⟩

/-- Claim C7 amended: when the 6-attempt cap is exhausted with
`remaining > 0`, an empty accumulator raises the hard failure (`Nebius
returned no usable image buffers`, the spec's `NoCandidates`) — in
particular a generator always returning 0 items raises it after exactly 6
attempts — but a non-empty short accumulator is returned as a partial
result, not raised as `InsufficientCandidates`. -/
theorem batchAcquisition_exhaustion_amended :
    (∀ (α : Type) (g : ℕ → ℕ → List α) (count : ℕ),
      (genRun g count 6 (genInit α count)).accum = [] →
      generateBasePngs g count = .error .noCandidates) ∧
    (∀ (α : Type) (g : ℕ → ℕ → List α) (count : ℕ),
      (genRun g count 6 (genInit α count)).accum ≠ [] →
      generateBasePngs g count
        = .ok ((genRun g count 6 (genInit α count)).accum.take count)) ∧
    generateBasePngs genAlwaysZero 3 = .error .noCandidates ∧
    (genRun genAlwaysZero 3 6 (genInit ℕ 3)).attempts = 6 := by
  refine ⟨?_, ?_, rfl, by decide⟩
  · intro α g count h
    rw [generateBasePngs, if_pos (List.isEmpty_iff.mpr h)]
  · intro α g count h
    rw [generateBasePngs, if_neg (fun he => h (List.isEmpty_iff.mp he))]

/-- Witness for the amended C7 at the all-failing and the partially
successful generators. -/
theorem batchAcquisition_exhaustion_amended_witness :
    (genRun genAlwaysZero 3 6 (genInit ℕ 3)).accum = [] ∧
    generateBasePngs genAlwaysZero 3 = .error .noCandidates ∧
    (genRun genOnceOne 3 6 (genInit ℕ 3)).accum ≠ [] ∧
    generateBasePngs genOnceOne 3
      = .ok ((genRun genOnceOne 3 6 (genInit ℕ 3)).accum.take 3) := by
  refine ⟨by decide, ?_, by decide, ?_⟩
  · exact batchAcquisition_exhaustion_amended.1 ℕ genAlwaysZero 3 (by decide)
  · exact batchAcquisition_exhaustion_amended.2.1 ℕ genOnceOne 3 (by decide)

/-! ### Claim C10: bounds and provenance of a successful acquisition -/

/-- Everything ever appended to the accumulator came from generator calls,
in delivery order: the final accumulator is the initial one followed by the
concatenation of the per-attempt generator results. -/
theorem genRun_accum_flatten (α : Type) (g : ℕ → ℕ → List α) (count : ℕ) :
    ∀ fuel s, ∃ calls : List (ℕ × ℕ),
      (genRun g count fuel s).accum
        = s.accum ++ (calls.map (fun p => g p.1 p.2)).flatten := by
  intro fuel
  induction fuel with
  | zero => intro s; exact ⟨[], by simp [genRun]⟩
  | succ n ih =>
      intro s
      rw [genRun]
      by_cases hcond : 0 < s.remaining ∧ s.attempts < 6
      · rw [if_pos hcond]
        obtain ⟨calls, hc⟩ := ih (genStep g count s)
        refine ⟨(s.attempts, s.remaining.toNat) :: calls, ?_⟩
        rw [hc]
        have hstep : (genStep g count s).accum
            = s.accum ++ g s.attempts s.remaining.toNat := by
          rw [genStep]
          by_cases hi : (g s.attempts s.remaining.toNat).isEmpty
          · have hnil : g s.attempts s.remaining.toNat = [] := List.isEmpty_iff.mp hi
            simp [hi, hnil]
          · simp [hi]
        rw [hstep]
        simp
      · rw [if_neg hcond]
        exact ⟨[], by simp⟩

/-- Claim C10: for every `count ≥ 1` and every generator, a successful run
returns between 1 and `count` buffers — the accumulated list truncated to
its first `count` items — and the accumulated list is exactly the
concatenation, in delivery order, of the buffers the generator delivered. -/
theorem batchAcquisition_result_bounds (α : Type) (g : ℕ → ℕ → List α)
    (count : ℕ) (l : List α) (hc : 1 ≤ count)
    (hok : generateBasePngs g count = .ok l) :
    1 ≤ l.length ∧ l.length ≤ count ∧
    ∃ calls : List (ℕ × ℕ),
      l = ((calls.map (fun p => g p.1 p.2)).flatten).take count := by
  rw [generateBasePngs] at hok
  by_cases he : (genRun g count 6 (genInit α count)).accum.isEmpty
  · rw [if_pos he] at hok
    cases hok
  · rw [if_neg he] at hok
    have hl : l = (genRun g count 6 (genInit α count)).accum.take count :=
      (Except.ok.inj hok).symm
    obtain ⟨calls, hcalls⟩ := genRun_accum_flatten α g count 6 (genInit α count)
    have hinit : (genInit α count).accum = [] := rfl
    rw [hinit, List.nil_append] at hcalls
    have hne : (genRun g count 6 (genInit α count)).accum ≠ [] :=
      fun h => he (List.isEmpty_iff.mpr h)
    have hpos : 0 < (genRun g count 6 (genInit α count)).accum.length :=
      List.length_pos.mpr hne
    refine ⟨?_, ?_, ⟨calls, by rw [hl, hcalls]⟩⟩
    · rw [hl, List.length_take]
      omega
    · rw [hl, List.length_take]
      omega

/-- Witness for C10: the one-item-per-call generator with `count = 1`
succeeds with the single delivered buffer. -/
theorem batchAcquisition_result_bounds_witness :
    1 ≤ 1 ∧ generateBasePngs genAlwaysOne 1 = .ok [0] ∧
    (1 ≤ ([0] : List ℕ).length ∧ ([0] : List ℕ).length ≤ 1 ∧
      ∃ calls : List (ℕ × ℕ),
        ([0] : List ℕ)
          = ((calls.map (fun p => genAlwaysOne p.1 p.2)).flatten).take 1) := by
  refine ⟨by norm_num, rfl, ?_⟩
  exact batchAcquisition_result_bounds ℕ genAlwaysOne 1 [0] (by norm_num) rfl

/-! ### Claim C5: orchestrator behaviour on a failing candidate -/

theorem collectAll_cons (f : Buf → Except String PipeOut) (b : Buf)
    (rest : List Buf) :
    collectAll f (b :: rest)
      = Except.bind (f b) (fun r =>
          Except.bind (collectAll f rest) (fun rs => Except.ok (r :: rs))) := rfl

/-- Counterexample to C5 as stated: of three base buffers, the first and
third are PNG-decodable and each succeeds through the whole candidate
pipeline on its own, while the middle one is undecodable (its mandatory pad
stage fails).  The orchestrator runs `Promise.all`, which rejects as soon as
any candidate rejects, so the batch returns no result set at all — not the
2 successful candidates the claim requires. -/
theorem orchestrator_counterexample :
    ((processOne removerFail vectorizerFail (Buf.png exOne) 4 4 (12/100)
        false false).1).toOption.isSome = true ∧
    ((processOne removerFail vectorizerFail (Buf.other none) 4 4 (12/100)
        false false).1).toOption.isSome = false ∧
    (generateDTFPipeline removerFail vectorizerFail
        [Buf.png exOne, Buf.other none, Buf.png exOne] 4 4 (12/100)
        false false).toOption = none := by
  exact ⟨rfl, rfl, rfl⟩

theorem collectAll_error_of_mem (f : Buf → Except String PipeOut)
    (bases : List Buf) (b : Buf) (e : String)
    (hmem : b ∈ bases) (herr : f b = .error e) :
    ∃ e', collectAll f bases = .error e' := by
  induction bases with
  | nil => cases hmem
  | cons a rest ih =>
      cases hfa : f a with
      | error e2 =>
          refine ⟨e2, ?_⟩
          rw [collectAll_cons, hfa]
          rfl
      | ok r =>
          rcases List.mem_cons.mp hmem with hba | hbr
          · rw [hba] at herr
            rw [herr] at hfa
            cases hfa
          · obtain ⟨e', he'⟩ := ih hbr
            refine ⟨e', ?_⟩
            rw [collectAll_cons, hfa]
            show Except.bind (collectAll f rest) _ = _
            rw [he']
            rfl

theorem collectAll_ok_of_all (f : Buf → Except String PipeOut)
    (bases : List Buf)
    (hall : ∀ b ∈ bases, ∃ out, f b = .ok out) :
    ∃ outs, collectAll f bases = .ok outs ∧ outs.length = bases.length := by
  induction bases with
  | nil => exact ⟨[], rfl, rfl⟩
  | cons a rest ih =>
      obtain ⟨r, hr⟩ := hall a (List.mem_cons_self a rest)
      obtain ⟨outs, houts, hlen⟩ :=
        ih (fun b hb => hall b (List.mem_cons_of_mem a hb))
      refine ⟨r :: outs, ?_, by simp [hlen]⟩
      rw [collectAll_cons, hr]
      show Except.bind (collectAll f rest) _ = _
      rw [houts]
      rfl

/-- Claim C5 amended: one candidate's mandatory-stage failure rejects the
whole batch (`Promise.all` semantics): if any base buffer's `processOne`
rejects, `generateDTF` propagates an error and no sibling results are
returned; only when every candidate succeeds does the orchestrator return
the full result set, one result per base buffer. -/
theorem orchestrator_amended :
    (∀ (rem vec : Buf → Except String Buf) (bases : List Buf) (tW tH : ℕ)
        (mf : ℚ) (dR dV : Bool) (b : Buf) (e : String),
      b ∈ bases → (processOne rem vec b tW tH mf dR dV).1 = .error e →
      ∃ e', generateDTFPipeline rem vec bases tW tH mf dR dV = .error e') ∧
    (∀ (rem vec : Buf → Except String Buf) (bases : List Buf) (tW tH : ℕ)
        (mf : ℚ) (dR dV : Bool),
      (∀ b ∈ bases, ∃ out, (processOne rem vec b tW tH mf dR dV).1 = .ok out) →
      ∃ outs, generateDTFPipeline rem vec bases tW tH mf dR dV = .ok outs ∧
        outs.length = bases.length) := by
  constructor
  · intro rem vec bases tW tH mf dR dV b e hmem herr
    exact collectAll_error_of_mem
      (fun b => (processOne rem vec b tW tH mf dR dV).1) bases b e hmem herr
  · intro rem vec bases tW tH mf dR dV hall
    exact collectAll_ok_of_all
      (fun b => (processOne rem vec b tW tH mf dR dV).1) bases hall

/-- Witness for the amended C5: the undecodable middle buffer rejects its
candidate and the two-buffer batch containing it errors; the all-good batch
returns one result per buffer. -/
theorem orchestrator_amended_witness :
    Buf.other none ∈ [Buf.png exOne, Buf.other none] ∧
    (processOne removerFail vectorizerFail (Buf.other none) 4 4 (12/100)
        false false).1 = .error "pad_margin: Invalid file signature" ∧
    (∃ e', generateDTFPipeline removerFail vectorizerFail
        [Buf.png exOne, Buf.other none] 4 4 (12/100) false false = .error e') ∧
    (∃ outs, generateDTFPipeline removerFail vectorizerFail
        [Buf.png exOne] 4 4 (12/100) false false = .ok outs ∧
      outs.length = [Buf.png exOne].length) := by
  refine ⟨by simp, rfl, ?_, ?_⟩
  · exact orchestrator_amended.1 removerFail vectorizerFail
      [Buf.png exOne, Buf.other none] 4 4 (12/100) false false
      (Buf.other none) "pad_margin: Invalid file signature" (by simp) rfl
  · exact orchestrator_amended.2 removerFail vectorizerFail
      [Buf.png exOne] 4 4 (12/100) false false
      (fun b hb => by
        rw [List.mem_singleton.mp hb]
        exact ⟨{ printPng := .png (resizeContainWithPngjs
            (padTransparentPng exOne (12/100)) 4 4), svg := none }, rfl⟩)

/-! ### Claim C8: failing optional background removal degrades gracefully -/

/-- Claim C8: when background removal is requested but the remover fails on
the normalized buffer, the candidate pipeline produces exactly the result it
would produce with background removal not requested (same final raster,
byte-for-byte, since the buffers are identical), never aborting the
candidate; and the failure is recorded in the observable log (the
`STEP_FAIL removebg` record and the skip warning — the spec's
`SkippedOptional`). -/
theorem pipeline_removebg_skip (rem vec : Buf → Except String Buf)
    (baseBuf : Buf) (tW tH : ℕ) (mf : ℚ) (dV : Bool) (e : String)
    (hfail : rem (ensurePngBuf baseBuf).1 = .error e) :
    (processOne rem vec baseBuf tW tH mf true dV).1
      = (processOne rem vec baseBuf tW tH mf false dV).1 ∧
    LogEntry.stepFail "removebg" ∈ (processOne rem vec baseBuf tW tH mf true dV).2 ∧
    LogEntry.warn "removebg" ∈ (processOne rem vec baseBuf tW tH mf true dV).2 := by
  refine ⟨?_, ?_, ?_⟩
  · simp only [processOne, hfail, if_true, Bool.false_eq_true, if_false]
    cases hpad : padStep mf (ensurePngBuf baseBuf).1 with
    | error e2 => rfl
    | ok padded =>
        dsimp only
        cases hres : resizeStep tW tH padded with
        | error e3 => rfl
        | ok resized => rfl
  · simp only [processOne, hfail, if_true]
    cases hpad : padStep mf (ensurePngBuf baseBuf).1 with
    | error e2 => simp [hpad]
    | ok padded =>
        cases hres : resizeStep tW tH padded with
        | error e3 => simp [hpad, hres]
        | ok resized => simp [hpad, hres]
  · simp only [processOne, hfail, if_true]
    cases hpad : padStep mf (ensurePngBuf baseBuf).1 with
    | error e2 => simp [hpad]
    | ok padded =>
        cases hres : resizeStep tW tH padded with
        | error e3 => simp [hpad, hres]
        | ok resized => simp [hpad, hres]

/-- Witness for C8 at a decodable 1×1 base buffer and the always-failing
remover. -/
theorem pipeline_removebg_skip_witness :
    removerFail (ensurePngBuf (Buf.png exOne)).1 = .error "quota exceeded" ∧
    (processOne removerFail vectorizerFail (Buf.png exOne) 4 4 (12/100)
        true false).1
      = (processOne removerFail vectorizerFail (Buf.png exOne) 4 4 (12/100)
        false false).1 ∧
    LogEntry.stepFail "removebg"
      ∈ (processOne removerFail vectorizerFail (Buf.png exOne) 4 4 (12/100)
        true false).2 := by
  have h := pipeline_removebg_skip removerFail vectorizerFail (Buf.png exOne)
    4 4 (12/100) false "quota exceeded" rfl
  exact ⟨rfl, h.1, h.2.1⟩

end DTF
